import Mathlib

/-!
Shallow embedding of the meeting-scheduling engine
(`calendar_utils.py`, `conflict_resolver.py`, `output_formatter.py`,
`meeting_assistant.py`) and proofs about it.

Modelling conventions, used throughout:

* Instants are natural numbers counting minutes since the epoch
  1970-01-01 00:00 (a Thursday) in the fixed local offset the program
  uses everywhere (+05:30).  The program works at minute resolution
  (every timestamp it builds has second = 0, and `timedelta` arguments
  are whole hours, days or minutes), so this representation is exact
  for the values that flow through the code.
* Python `datetime.weekday()` (Monday = 0 .. Sunday = 6) becomes
  `weekday` below; 1970-01-01 was a Thursday, hence the offset 3.
* A Python `dict` is modelled as an association list in insertion
  order; `dict` iteration order is insertion order.
* Strings stay strings; the case-insensitive substring tests done with
  Python's `in` and `str.lower` are modelled by `strContains` and
  `lowerStr`.
-/

/-- Minute-of-day split: day index of an instant. -/
def dayIndex (t : Nat) : Nat := t / 1440

/-- Python `datetime.weekday()`: Monday = 0 .. Sunday = 6.
1970-01-01 (day 0) was a Thursday (= 3). -/
def weekday (t : Nat) : Nat := (dayIndex t + 3) % 7

/-- Hour component of an instant. -/
def hourOf (t : Nat) : Nat := t % 1440 / 60

/-- Minute component of an instant. -/
def minuteOf (t : Nat) : Nat := t % 1440 % 60

/-- Midnight of the day of `t` (Python `replace(hour=0, minute=0, ...)`). -/
def dayBase (t : Nat) : Nat := dayIndex t * 1440

/-- Python `replace(hour=h, minute=m)` (seconds are 0 at minute resolution). -/
def atTime (t h m : Nat) : Nat := dayBase t + h * 60 + m

/-- Python `replace(hour=h)`: keeps the minute component. -/
def replaceHour (t h : Nat) : Nat := dayBase t + h * 60 + minuteOf t

/-- Source `calendar_utils.is_weekend`: `date_obj.weekday() >= 5`. -/
def isWeekend (t : Nat) : Bool := 5 ≤ weekday t

/-- Character-list version of Python `str.startswith`. -/
def isPrefixChars : List Char → List Char → Bool
  | [], _ => true
  | _ :: _, [] => false
  | a :: as, b :: bs => a == b && isPrefixChars as bs

/-- Character-list version of Python's substring test `pat in s`. -/
def containsChars (pat : List Char) : List Char → Bool
  | [] => isPrefixChars pat []
  | c :: rest => isPrefixChars pat (c :: rest) || containsChars pat rest

/-- Python `pat in s` (contiguous substring test). -/
def strContains (s pat : String) : Bool := containsChars pat.data s.data

/-- Python `str.lower`. -/
def lowerStr (s : String) : String := String.mk (s.data.map Char.toLower)

/-- Calendar event dictionary as produced by
`calendar_utils.retrive_calendar_events` and consumed by the resolver
and the formatter. -/
structure Event where
  StartTime : String
  EndTime : String
  NumAttendees : Nat
  Attendees : List String
  Summary : String
deriving DecidableEq, Repr

/-- Importance keyword table of
`conflict_resolver._analyze_meeting_importance`, in `dict` insertion
order: high, medium, low. -/
def importanceKeywords : List (String × List String) :=
  [("high", ["client", "customer", "urgent", "critical", "ceo", "board", "emergency"]),
   ("medium", ["team", "project", "review", "planning", "discussion"]),
   ("low", ["lunch", "coffee", "break", "personal", "training"])]

/-- The `for level, keywords in importance_keywords.items()` loop of
`_analyze_meeting_importance`.  The inner loop sets `importance = level`
on the first matching keyword; the outer loop stops only when
`importance != 'medium'` after a level has been scanned. -/
def importanceLoop : List (String × List String) → String → String → String
  | [], _, imp => imp
  | (level, kws) :: rest, summaryLower, imp =>
    let imp1 := if kws.any (fun k => strContains summaryLower k) then level else imp
    if imp1 ≠ "medium" then imp1 else importanceLoop rest summaryLower imp1

/-- Importance tier assigned by `_analyze_meeting_importance` to one
event summary: lowercase the summary, run the keyword loop starting
from the default `'medium'`. -/
def classifyImportance (summary : String) : String :=
  importanceLoop importanceKeywords (lowerStr summary) "medium"

/-- Entry of the `meeting_importance` list built by
`_analyze_meeting_importance`. -/
structure ImportanceEntry where
  event : Event
  importance : String
  summary : String
deriving DecidableEq, Repr

/-- Source `conflict_resolver._analyze_meeting_importance`. -/
def analyzeMeetingImportance (events : List Event) : List ImportanceEntry :=
  events.map (fun ev =>
    { event := ev, importance := classifyImportance ev.Summary, summary := ev.Summary })

/-- Result dictionary of `conflict_resolver._analyze_conflicts`. -/
structure ConflictAnalysis where
  allFree : Bool
  someBusy : Bool
  allBusy : Bool
  availableParticipants : List String
  busyParticipants : List String
  conflictDetails : List (String × List ImportanceEntry)
deriving DecidableEq, Repr

/-- Loop body of `_analyze_conflicts`: walk the participant → events
mapping in insertion order, splitting into available and busy and
recording the importance analysis for busy participants. -/
def analyzeConflictsAux :
    List (String × List Event) → List String × List String × List (String × List ImportanceEntry)
  | [] => ([], [], [])
  | (p, evs) :: rest =>
    let (a, b, d) := analyzeConflictsAux rest
    if evs.isEmpty then (p :: a, b, d) else (a, p :: b, (p, analyzeMeetingImportance evs) :: d)

/-- Source `conflict_resolver._analyze_conflicts`. -/
def analyzeConflicts (allEvents : List (String × List Event)) : ConflictAnalysis :=
  let (a, b, d) := analyzeConflictsAux allEvents
  { allFree := b.length == 0
    someBusy := decide (0 < b.length) && decide (b.length < allEvents.length)
    allBusy := b.length == allEvents.length
    availableParticipants := a
    busyParticipants := b
    conflictDetails := d }

example : classifyImportance "Team Lunch" = "low" := by decide
example : classifyImportance "CEO sync" = "high" := by decide
example : classifyImportance "weekly sync" = "medium" := by decide
example : classifyImportance "project review" = "medium" := by decide

/-- Source `_get_next_thursday` / `_get_next_monday` / ... unified over
the target weekday index: `days_ahead = target - weekday(now)`, and if
`days_ahead <= 0` add 7. -/
def getNextDow (target now : Nat) : Nat :=
  let w := weekday now
  let da := if target ≤ w then target + 7 - w else target - w
  now + da * 1440

/-- Loop guard of the `flexible` branch of `_find_optimal_time`:
`is_weekend(next_slot) or next_slot.hour < 9 or next_slot.hour > 17`. -/
def optimalGuard (t : Nat) : Bool :=
  isWeekend t || decide (hourOf t < 9) || decide (17 < hourOf t)

/-- Loop body of the `flexible` branch of `_find_optimal_time`. -/
def optimalStep (t : Nat) : Nat :=
  if isWeekend t then
    let dtm := (7 - weekday t) % 7
    let dtm := if dtm = 0 then 7 else dtm
    replaceHour (t + dtm * 1440) 9
  else if hourOf t < 9 then replaceHour t 9
  else replaceHour (t + 1440) 9

/-- Fuel-bounded iteration of the `while` loop in the `flexible`
branch of `_find_optimal_time`.  The source loop terminates in at most
three iterations (weekend jump, then at most an hour adjustment), so
any fuel ≥ 3 reproduces it exactly. -/
def optimalLoop : Nat → Nat → Nat
  | 0, t => t
  | fuel + 1, t => if optimalGuard t then optimalLoop fuel (optimalStep t) else t

/-- Source `conflict_resolver._find_optimal_time`.  `now` is the
instant `datetime.now()` returns; the source serialises the result
with `strftime('%Y-%m-%dT%H:%M:%S+05:30')`, modelled by the instant
the string denotes. -/
def findOptimalTime (timeConstraints : String) (now : Nat) : Nat :=
  let c := lowerStr timeConstraints
  if strContains c "thursday" then
    let base := getNextDow 3 now
    let base := if isWeekend base then getNextDow 0 now else base
    atTime base 10 30
  else if strContains c "monday" then
    let base := getNextDow 0 now
    if strContains c "9:00" then atTime base 9 0 else atTime base 10 0
  else if strContains c "tuesday" then
    let base := getNextDow 1 now
    if strContains c "11:00" then atTime base 11 0 else atTime base 10 0
  else if strContains c "wednesday" then
    let base := getNextDow 2 now
    if strContains c "10:00" then atTime base 10 0 else atTime base 10 0
  else if strContains c "friday" then
    atTime (getNextDow 4 now) 10 0
  else
    optimalLoop 7 ((now + 60) / 60 * 60)

/-- Source `conflict_resolver._get_tomorrow_time`: tomorrow at 10:00,
moved past a weekend to the next Monday.  `now` is the instant
`datetime.now()` returns. -/
def getTomorrowTime (now : Nat) : Nat :=
  let tomorrow := now + 1440
  let tomorrow :=
    if isWeekend tomorrow then
      let dtm := (7 - weekday tomorrow) % 7
      let dtm := if dtm = 0 then 7 else dtm
      tomorrow + dtm * 1440
    else tomorrow
  atTime tomorrow 10 0

/-- Source `conflict_resolver._find_alternative_time`: two hours from
`now`, minutes zeroed.  The declared `meeting_duration` argument is
unused in the source too. -/
def findAlternativeTime (meetingDuration now : Nat) : Nat :=
  (now + 120) / 60 * 60

/-- Parsed meeting request as produced by
`meeting_assistant._manual_parse_request`. -/
structure ParsedRequest where
  participants : List String
  meetingDuration : Nat
  timeConstraints : String
  subject : String
  startTime : Option String
  From : String
deriving DecidableEq, Repr

/-- Follow-up meeting entry of `_schedule_partial_meeting`. -/
structure FollowUp where
  participants : List String
  time : Nat
  reason : String
deriving DecidableEq, Repr

/-- Resolution decision dictionary returned by
`conflict_resolver.resolve_scheduling_conflicts`; the optional keys are
`none` when the source dictionary omits them. -/
structure Decision where
  action : String
  recommendedTime : Nat
  participantsToInclude : List String
  reason : String
  meetingDuration : Nat
  followUpNeeded : Option (List String) := none
  followUpMeetings : Option (List FollowUp) := none
  rescheduleNeeded : Option String := none
deriving DecidableEq, Repr

/-- Source `conflict_resolver._schedule_all_participants`. -/
def scheduleAllParticipants (parsed : ParsedRequest) (dur now : Nat) : Decision :=
  { action := "schedule_all"
    recommendedTime := findOptimalTime parsed.timeConstraints now
    participantsToInclude := parsed.participants
    reason := "All participants are available at the requested time"
    meetingDuration := dur }

/-- Source `conflict_resolver._handle_all_busy`. -/
def handleAllBusy (parsed : ParsedRequest) (dur now : Nat) : Decision :=
  { action := "reschedule_tomorrow"
    recommendedTime := getTomorrowTime now
    participantsToInclude := parsed.participants
    reason := "All participants are busy with important meetings. Rescheduling to tomorrow."
    meetingDuration := dur }

/-- Source `conflict_resolver._reschedule_for_all`. -/
def rescheduleForAll (parsed : ParsedRequest) (dur now : Nat) : Decision :=
  { action := "reschedule_tomorrow"
    recommendedTime := getTomorrowTime now
    participantsToInclude := parsed.participants
    reason := "All participants are required but some are busy. Rescheduling to tomorrow."
    meetingDuration := dur }

/-- Source `conflict_resolver._schedule_with_reschedule`. -/
def scheduleWithReschedule (parsed : ParsedRequest) (busyPerson : String) (dur now : Nat) :
    Decision :=
  { action := "schedule_all_with_reschedule"
    recommendedTime := findOptimalTime parsed.timeConstraints now
    participantsToInclude := parsed.participants
    reason := "Rescheduling " ++ busyPerson ++
      "\x27s low-priority meeting to accommodate this important meeting."
    meetingDuration := dur
    rescheduleNeeded := some busyPerson }

/-- Source `conflict_resolver._schedule_partial_meeting`. -/
def schedulePartialMeeting (parsed : ParsedRequest)
    (availableParticipants busyParticipants : List String) (dur now : Nat) : Decision :=
  let optimalTime := findOptimalTime parsed.timeConstraints now
  let subject := lowerStr parsed.subject
  if strContains subject "feedback" && decide (1 ≤ availableParticipants.length) then
    { action := "schedule_partial"
      recommendedTime := optimalTime
      participantsToInclude := availableParticipants
      reason := "Meeting can proceed with " ++ String.intercalate ", " availableParticipants ++
        ". Will update " ++ String.intercalate ", " busyParticipants ++ " separately."
      meetingDuration := dur
      followUpNeeded := some busyParticipants }
  else
    let organizer := parsed.From
    { action := "schedule_organizer_first"
      recommendedTime := optimalTime
      participantsToInclude := organizer :: availableParticipants
      reason := "Scheduling with organizer and available participants first. " ++
        "Will arrange separate time with " ++ String.intercalate ", " busyParticipants ++ "."
      meetingDuration := dur
      followUpMeetings := some
        [{ participants := organizer :: busyParticipants
           time := findAlternativeTime dur now
           reason := "Follow-up meeting with previously busy participants" }] }

/-- Keyword test of `_handle_partial_conflicts`:
`any(keyword in subject for keyword in ['all', 'team', 'everyone', 'together'])`. -/
def requiresAllKeyword (subject : String) : Bool :=
  ["all", "team", "everyone", "together"].any (fun k => strContains (lowerStr subject) k)

/-- Conflicts of the first busy participant (`busy_participants[0]`,
looked up in `conflict_details`; both accesses are total in the source
because `_handle_partial_conflicts` runs only when `some_busy`). -/
def firstBusyEvents (ca : ConflictAnalysis) : List ImportanceEntry :=
  (ca.conflictDetails.lookup (ca.busyParticipants.headD "")).getD []

/-- Test of `_handle_partial_conflicts`:
`any(event['importance'] == 'low' for event in busy_events)` for the
first busy participant. -/
def firstBusyHasLowConflict (ca : ConflictAnalysis) : Bool :=
  (firstBusyEvents ca).any (fun e => e.importance == "low")

/-- Source `conflict_resolver._handle_partial_conflicts`. -/
def handlePartialConflicts (parsed : ParsedRequest) (ca : ConflictAnalysis) (dur now : Nat) :
    Decision :=
  if requiresAllKeyword parsed.subject then rescheduleForAll parsed dur now
  else if firstBusyHasLowConflict ca then
    scheduleWithReschedule parsed (ca.busyParticipants.headD "") dur now
  else
    schedulePartialMeeting parsed ca.availableParticipants ca.busyParticipants dur now

/-- Source `conflict_resolver.resolve_scheduling_conflicts`. -/
def resolveSchedulingConflicts (parsed : ParsedRequest)
    (allParticipantsEvents : List (String × List Event)) (meetingDuration now : Nat) : Decision :=
  let ca := analyzeConflicts allParticipantsEvents
  if ca.allFree then scheduleAllParticipants parsed meetingDuration now
  else if ca.someBusy then handlePartialConflicts parsed ca meetingDuration now
  else handleAllBusy parsed meetingDuration now

/-- Source `calendar_utils.check_weekend_constraint`. -/
def checkWeekendConstraint (timeConstraint : String) : Bool :=
  ["saturday", "sunday", "weekend", "sat", "sun"].any
    (fun k => strContains (lowerStr timeConstraint) k)

/-- Source `calendar_utils.get_date_range_from_constraint`.  `now` is
the instant `datetime.now()` returns; `none` models the `(None, None)`
weekend rejection.  The `replace(hour=23, minute=59, second=59)` day
end becomes midnight + 1439 minutes at minute resolution; the final
`strftime` serialisation is modelled by the instants themselves. -/
def getDateRangeFromConstraint (timeConstraint : String) (durationMins now : Nat) :
    Option (Nat × Nat) :=
  let startTime := dayBase now
  let endTime := startTime + 7 * 1440
  let c := lowerStr timeConstraint
  if checkWeekendConstraint timeConstraint then none
  else if strContains c "tomorrow" then
    let tomorrow := now + 1440
    if isWeekend tomorrow then none
    else some (dayBase tomorrow, dayBase tomorrow + 1439)
  else if strContains c "next week" then
    let nextWeek := now + 7 * 1440
    some (dayBase nextWeek, dayBase nextWeek + 7 * 1440)
  else if strContains c "saturday" || strContains c "sunday" then none
  else if strContains c "thursday" then
    let d := getNextDow 3 now
    some (dayBase d, dayBase d + 1439)
  else if strContains c "monday" then
    let d := getNextDow 0 now
    some (dayBase d, dayBase d + 1439)
  else if strContains c "tuesday" then
    let d := getNextDow 1 now
    some (dayBase d, dayBase d + 1439)
  else if strContains c "wednesday" then
    let d := getNextDow 2 now
    some (dayBase d, dayBase d + 1439)
  else if strContains c "friday" then
    let d := getNextDow 4 now
    some (dayBase d, dayBase d + 1439)
  else some (startTime, endTime)

/-- Busy interval as consumed by `calendar_utils.find_free_slots`: the
`StartTime` / `EndTime` ISO strings of an event dictionary, modelled by
the instants they denote (the source's sort key, lexicographic order on
fixed-width ISO strings, coincides with the numeric order). -/
structure CalInterval where
  startTime : Nat
  endTime : Nat
deriving DecidableEq, Repr

/-- Free slot dictionary `{'start': ..., 'end': ...}` emitted by
`find_free_slots` (`stop` models the `'end'` key). -/
structure Slot where
  start : Nat
  stop : Nat
deriving DecidableEq, Repr

/-- Sort key of `sorted(events, key=lambda x: x['StartTime'])`. -/
def startLE (a b : CalInterval) : Prop := a.startTime ≤ b.startTime

instance : DecidableRel startLE := fun a b => Nat.decLe a.startTime b.startTime

instance : IsTotal CalInterval startLE := ⟨fun a b => Nat.le_total a.startTime b.startTime⟩

instance : IsTrans CalInterval startLE := ⟨fun _ _ _ h1 h2 => Nat.le_trans h1 h2⟩

/-- Step (a) of `find_free_slots`: the slot before the first event,
emitted when there are no events or the first event starts strictly
after `work_start + duration`. -/
def leadSlots (sortedEvents : List CalInterval) (durationMins workStart : Nat) : List Slot :=
  match sortedEvents with
  | [] => [{ start := workStart, stop := workStart + durationMins }]
  | e :: _ =>
    if workStart + durationMins < e.startTime then
      [{ start := workStart, stop := workStart + durationMins }]
    else []

/-- Step (b) of `find_free_slots`: for each adjacent pair of sorted
events, a slot at the end of the earlier event when the gap to the next
start is at least the duration (the source computes the gap as a real
number of minutes, which can be negative; hence the `Int` cast). -/
def betweenSlots (durationMins : Nat) : List CalInterval → List Slot
  | [] => []
  | [_] => []
  | a :: b :: rest =>
    (if (durationMins : Int) ≤ (b.startTime : Int) - (a.endTime : Int) then
      [{ start := a.endTime, stop := a.endTime + durationMins }]
    else []) ++ betweenSlots durationMins (b :: rest)

/-- Step (c) of `find_free_slots`: the slot after the last event, when
it still fits before `work_end`. -/
def afterSlots (sortedEvents : List CalInterval) (durationMins workEnd : Nat) : List Slot :=
  match sortedEvents.getLast? with
  | none => []
  | some last =>
    if last.endTime + durationMins ≤ workEnd then
      [{ start := last.endTime, stop := last.endTime + durationMins }]
    else []

/-- Source `calendar_utils.find_free_slots`.  `dayStart` is the
midnight of the day denoted by the `start_time` argument; working hours
are `replace(hour=9)` to `replace(hour=18)` of that day.  The three
slot groups are appended in source order. -/
def findFreeSlots (events : List CalInterval) (durationMins dayStart : Nat) : List Slot :=
  let workStart := dayStart + 9 * 60
  let workEnd := dayStart + 18 * 60
  let sortedEvents := List.insertionSort startLE events
  leadSlots sortedEvents durationMins workStart ++
    betweenSlots durationMins sortedEvents ++
    afterSlots sortedEvents durationMins workEnd

example : findFreeSlots [] 30 0 = [{ start := 540, stop := 570 }] := by decide
example :
    findFreeSlots [⟨540, 900⟩, ⟨600, 630⟩, ⟨780, 840⟩] 30 0 =
      [{ start := 630, stop := 660 }, { start := 840, stop := 870 }] := by decide
example : findFreeSlots [⟨570, 600⟩] 30 0 = [{ start := 600, stop := 630 }] := by decide

/-- Python `str.replace(old, new="")` on character lists: remove all
non-overlapping occurrences of `old`, scanning left to right.  The
first argument counts characters of a matched occurrence still to be
skipped, so the recursion is structural in the scanned list. -/
def removeAllChars (old : List Char) : Nat → List Char → List Char
  | _, [] => []
  | skip + 1, _ :: rest => removeAllChars old skip rest
  | 0, c :: rest =>
    if isPrefixChars old (c :: rest) && !old.isEmpty then
      removeAllChars old (old.length - 1) rest
    else c :: removeAllChars old 0 rest

/-- Python `s.replace(old, '')`. -/
def removeAll (s old : String) : String := String.mk (removeAllChars old.data 0 s.data)

/-- Character-list splitter with the semantics of `String.splitOn` /
the splitting `datetime.fromisoformat` performs: cut at each
non-overlapping occurrence of `sep`, left to right.  `skip` counts
separator characters still to be consumed and `acc` is the current
segment, reversed. -/
def splitChars (sep : List Char) : Nat → List Char → List Char → List (List Char)
  | _, acc, [] => [acc.reverse]
  | skip + 1, acc, _ :: rest => splitChars sep skip acc rest
  | 0, acc, c :: rest =>
    if isPrefixChars sep (c :: rest) && !sep.isEmpty then
      acc.reverse :: splitChars sep (sep.length - 1) [] rest
    else splitChars sep 0 (c :: acc) rest

/-- Split a string on every occurrence of `sep`. -/
def splitOnStr (s sep : String) : List String :=
  (splitChars sep.data 0 [] s.data).map String.mk

/-- Naive timestamp as parsed by `datetime.fromisoformat` (offset
already stripped by the source's `replace('+05:30', '')`). -/
structure DateParts where
  year : Nat
  month : Nat
  day : Nat
  hour : Nat
  minute : Nat
  second : Nat
deriving DecidableEq, Repr

/-- Gregorian leap-year test. -/
def isLeap (y : Nat) : Bool := y % 4 == 0 && (y % 100 != 0 || y % 400 == 0)

/-- Days in a Gregorian month. -/
def daysInMonth (y m : Nat) : Nat :=
  if m = 2 then (if isLeap y then 29 else 28)
  else if m = 4 ∨ m = 6 ∨ m = 9 ∨ m = 11 then 30
  else 31

/-- Parse a run of decimal digits (all characters must be digits). -/
def parseDigits (s : String) : Option Nat :=
  if s.data ≠ [] ∧ s.data.all Char.isDigit then
    some (s.data.foldl (fun acc c => acc * 10 + (c.toNat - 48)) 0)
  else none

/-- Modelled from the Python standard library: `datetime.fromisoformat`
restricted to the naive formats this program produces and validates
(`YYYY-MM-DD`, optionally followed by `THH:MM` or `THH:MM:SS`); any
other shape fails, as `fromisoformat` raises `ValueError`. -/
def parseIsoModel (s : String) : Option DateParts :=
  let parseDate : String → Option (Nat × Nat × Nat) := fun ds =>
    match splitOnStr ds "-" with
    | [ys, ms, dds] =>
      match parseDigits ys, parseDigits ms, parseDigits dds with
      | some y, some m, some d =>
        if ys.length = 4 ∧ ms.length = 2 ∧ dds.length = 2 ∧
            1 ≤ m ∧ m ≤ 12 ∧ 1 ≤ d ∧ d ≤ daysInMonth y m then
          some (y, m, d)
        else none
      | _, _, _ => none
    | _ => none
  let parseTime : String → Option (Nat × Nat × Nat) := fun ts =>
    match splitOnStr ts ":" with
    | [hs, ms, ss] =>
      match parseDigits hs, parseDigits ms, parseDigits ss with
      | some h, some mi, some sec =>
        if hs.length = 2 ∧ ms.length = 2 ∧ ss.length = 2 ∧ h < 24 ∧ mi < 60 ∧ sec < 60 then
          some (h, mi, sec)
        else none
      | _, _, _ => none
    | [hs, ms] =>
      match parseDigits hs, parseDigits ms with
      | some h, some mi =>
        if hs.length = 2 ∧ ms.length = 2 ∧ h < 24 ∧ mi < 60 then some (h, mi, 0) else none
      | _, _ => none
    | _ => none
  match splitOnStr s "T" with
  | [ds] =>
    match parseDate ds with
    | some (y, m, d) => some ⟨y, m, d, 0, 0, 0⟩
    | none => none
  | [ds, ts] =>
    match parseDate ds, parseTime ts with
    | some (y, m, d), some (h, mi, sec) => some ⟨y, m, d, h, mi, sec⟩
    | _, _ => none
  | _ => none

/-- Day after a Gregorian date. -/
def nextDayYMD : Nat × Nat × Nat → Nat × Nat × Nat
  | (y, m, d) =>
    if d < daysInMonth y m then (y, m, d + 1)
    else if m < 12 then (y, m + 1, 1)
    else (y + 1, 1, 1)

/-- Advance a Gregorian date by `n` days. -/
def addDaysYMD : Nat → Nat × Nat × Nat → Nat × Nat × Nat
  | 0, ymd => ymd
  | n + 1, ymd => addDaysYMD n (nextDayYMD ymd)

/-- Python `start_time + timedelta(minutes=duration_mins)` on a parsed
timestamp: minutes roll over into hours and days; seconds are kept. -/
def addMinutesParts (p : DateParts) (durationMins : Nat) : DateParts :=
  let total := p.hour * 60 + p.minute + durationMins
  let (y, m, d) := addDaysYMD (total / 1440) (p.year, p.month, p.day)
  { year := y, month := m, day := d
    hour := total % 1440 / 60, minute := total % 60, second := p.second }

/-- Zero-pad to two digits. -/
def pad2 (n : Nat) : String := if n < 10 then "0" ++ toString n else toString n

/-- Zero-pad to four digits. -/
def pad4 (n : Nat) : String :=
  let s := toString n
  String.mk (List.replicate (4 - s.length) '0') ++ s

/-- Python `strftime('%Y-%m-%dT%H:%M:%S+05:30')` on a parsed timestamp. -/
def fmtParts (p : DateParts) : String :=
  pad4 p.year ++ "-" ++ pad2 p.month ++ "-" ++ pad2 p.day ++ "T" ++
    pad2 p.hour ++ ":" ++ pad2 p.minute ++ ":" ++ pad2 p.second ++ "+05:30"

/-- Source `output_formatter._calculate_end_time`: strip the offset,
parse, add the duration and re-serialise; on a parse failure the
`except` branch falls back to returning the start string unchanged. -/
def calculateEndTime (startTimeStr : String) (durationMins : Nat) : String :=
  match parseIsoModel (removeAll startTimeStr "+05:30") with
  | none => startTimeStr
  | some p => fmtParts (addMinutesParts p durationMins)

example : calculateEndTime "2026-10-12T10:00:00+05:30" 30 = "2026-10-12T10:30:00+05:30" := by
  decide
example : calculateEndTime "not-a-time" 30 = "not-a-time" := by decide

/-- Gregorian date of a day index (days since 1970-01-01), by the
standard era-decomposition algorithm; used only to serialise instants
back to ISO strings the way `strftime` does. -/
def civilFromDays (z0 : Nat) : Nat × Nat × Nat :=
  let z := z0 + 719468
  let era := z / 146097
  let doe := z % 146097
  let yoe := (doe - doe / 1460 + doe / 36524 - doe / 146096) / 365
  let y := yoe + era * 400
  let doy := doe - (365 * yoe + yoe / 4 - yoe / 100)
  let mp := (5 * doy + 2) / 153
  let d := doy - (153 * mp + 2) / 5 + 1
  let m := if mp < 10 then mp + 3 else mp - 9
  (if m ≤ 2 then y + 1 else y, m, d)

/-- Python `strftime('%Y-%m-%dT%H:%M:%S+05:30')` on an instant (all
instants the program builds have second = 0). -/
def fmtInstant (t : Nat) : String :=
  let (y, m, d) := civilFromDays (dayIndex t)
  pad4 y ++ "-" ++ pad2 m ++ "-" ++ pad2 d ++ "T" ++
    pad2 (hourOf t) ++ ":" ++ pad2 (minuteOf t) ++ ":00+05:30"

example : fmtInstant 0 = "1970-01-01T00:00:00+05:30" := by decide
example : fmtInstant (20738 * 1440 + 10 * 60 + 30) = "2026-10-12T10:30:00+05:30" := by decide

/-- Follow-up meeting entry as the output formatter sees it: the
`time` value is the ISO string the resolver serialised. -/
structure FollowUpS where
  participants : List String
  time : String
  reason : String
deriving DecidableEq, Repr

/-- Resolution dictionary as `output_formatter.format_output` consumes
it: `recommended_time` is the ISO string the resolver produced. -/
structure ResolutionResult where
  action : String
  recommendedTime : String
  participantsToInclude : List String
  reason : String
  meetingDuration : Nat
  followUpNeeded : Option (List String) := none
  followUpMeetings : Option (List FollowUpS) := none
  rescheduleNeeded : Option String := none
deriving DecidableEq, Repr

/-- Serialisation boundary between the resolver and the formatter: the
instants held in a `Decision` are the values denoted by the strings the
source resolver already built with `strftime`. -/
def serializeDecision (d : Decision) : ResolutionResult :=
  { action := d.action
    recommendedTime := fmtInstant d.recommendedTime
    participantsToInclude := d.participantsToInclude
    reason := d.reason
    meetingDuration := d.meetingDuration
    followUpNeeded := d.followUpNeeded
    followUpMeetings := d.followUpMeetings.map (List.map (fun f =>
      { participants := f.participants, time := fmtInstant f.time, reason := f.reason }))
    rescheduleNeeded := d.rescheduleNeeded }

/-- Entry of the output `Attendees` list built by
`output_formatter._build_attendees_events`. -/
structure AttendeeEntry where
  email : String
  events : List Event
deriving DecidableEq, Repr

/-- The `Attendees` value of a response: the weekend-rejection and
error responses echo the raw input attendee dictionaries, while
`format_output` builds per-participant event lists. -/
inductive AttendeesField where
  | raw (emails : List String)
  | withEvents (entries : List AttendeeEntry)
deriving DecidableEq, Repr

/-- The `MetaData` value of a response, one constructor per JSON shape
the source emits. -/
inductive MetaDataV where
  | rejected (status reason message : String)
  | failed (error status : String)
  | resolution (resolutionAction resolutionReason schedulingStrategy : String)
      (followUpMeetings : Option (List FollowUpS))
      (followUpNeeded : Option (List String))
      (rescheduleNeeded : Option String)
deriving DecidableEq, Repr

/-- Incoming request JSON as consumed by
`meeting_assistant.your_meeting_assistant`; `Attendees` holds the
`email` field of each attendee dictionary. -/
structure InputData where
  Request_id : String
  Datetime : String
  Location : String
  From : String
  Attendees : List String
  Subject : String
  EmailContent : String
deriving DecidableEq, Repr

/-- Response JSON produced by the system. -/
structure Response where
  Request_id : String
  Datetime : String
  Location : String
  From : String
  Attendees : AttendeesField
  Subject : String
  EmailContent : String
  EventStart : String
  EventEnd : String
  Duration_mins : String
  MetaData : MetaDataV
deriving DecidableEq, Repr

/-- Sort key of `participant_events.sort(key=lambda x: x.get('StartTime', ''))`
(lexicographic on the ISO strings). -/
def evStartLE (a b : Event) : Prop := a.StartTime ≤ b.StartTime

instance : DecidableRel evStartLE := fun a b =>
  inferInstanceAs (Decidable (a.StartTime ≤ b.StartTime))

/-- Source `output_formatter._build_attendees_events`.  The
`list(set(...))` deduplication of `From` plus attendee emails is
modelled by `List.dedup` (Python's set order is arbitrary; claims below
do not depend on the order chosen). -/
def buildAttendeesEvents (includedParticipants : List String)
    (allParticipantsEvents : List (String × List Event))
    (meetingStart meetingEnd meetingSubject : String) (originalRequest : InputData) :
    List AttendeeEntry :=
  let allParticipants := (originalRequest.From :: originalRequest.Attendees).dedup
  allParticipants.map (fun p =>
    let evs := (allParticipantsEvents.lookup p).getD []
    let evs :=
      if includedParticipants.contains p then
        evs ++ [{ StartTime := meetingStart, EndTime := meetingEnd,
                  NumAttendees := includedParticipants.length,
                  Attendees := includedParticipants, Summary := meetingSubject }]
      else evs
    { email := p, events := List.insertionSort evStartLE evs })

/-- Source `output_formatter._get_scheduling_strategy`. -/
def getSchedulingStrategy (action : String) : String :=
  if action = "schedule_all" then "All participants available - direct scheduling"
  else if action = "schedule_partial" then "Partial scheduling with available participants"
  else if action = "reschedule_tomorrow" then "All busy - rescheduled to next day"
  else if action = "schedule_organizer_first" then
    "Organizer and available participants first, follow-up with busy participants"
  else if action = "schedule_all_with_reschedule" then
    "All participants scheduled with low-priority meeting rescheduled"
  else "Standard scheduling"

/-- Source `output_formatter._build_metadata`. -/
def buildMetadata (rr : ResolutionResult) : MetaDataV :=
  .resolution rr.action rr.reason (getSchedulingStrategy rr.action)
    rr.followUpMeetings rr.followUpNeeded rr.rescheduleNeeded

/-- Source `output_formatter.format_output`. -/
def formatOutput (originalRequest : InputData) (rr : ResolutionResult)
    (allParticipantsEvents : List (String × List Event)) : Response :=
  let startTime := rr.recommendedTime
  let endTime := calculateEndTime startTime rr.meetingDuration
  { Request_id := originalRequest.Request_id
    Datetime := originalRequest.Datetime
    Location := originalRequest.Location
    From := originalRequest.From
    Attendees := .withEvents (buildAttendeesEvents rr.participantsToInclude
      allParticipantsEvents startTime endTime originalRequest.Subject originalRequest)
    Subject := originalRequest.Subject
    EmailContent := originalRequest.EmailContent
    EventStart := startTime
    EventEnd := endTime
    Duration_mins := toString rr.meetingDuration
    MetaData := buildMetadata rr }

/-- Source `meeting_assistant._create_weekend_rejection_response`. -/
def createWeekendRejectionResponse (data : InputData) : Response :=
  { Request_id := data.Request_id
    Datetime := data.Datetime
    Location := data.Location
    From := data.From
    Attendees := .raw data.Attendees
    Subject := data.Subject
    EmailContent := data.EmailContent
    EventStart := ""
    EventEnd := ""
    Duration_mins := ""
    MetaData := .rejected "rejected" "Its weekends no meetings are possible"
      "Weekend meetings are not allowed. Please schedule during business days (Monday-Friday)." }

/-- Source `meeting_assistant._create_error_response`. -/
def createErrorResponse (data : InputData) (errorMessage : String) : Response :=
  { Request_id := data.Request_id
    Datetime := data.Datetime
    Location := data.Location
    From := data.From
    Attendees := .raw data.Attendees
    Subject := data.Subject
    EmailContent := data.EmailContent
    EventStart := ""
    EventEnd := ""
    Duration_mins := "30"
    MetaData := .failed errorMessage "failed" }

/-- Source `meeting_assistant._get_all_participants_events`.  The
`raise ValueError("WEEKEND_MEETING_REQUESTED")` paths become `Except`
errors; `fetch` abstracts `calendar_utils.retrive_calendar_events`
(participant, window start, window end), and the thread-per-participant
fan-out is modelled by the per-key result mapping it produces. -/
def getAllParticipantsEvents (parsed : ParsedRequest) (now : Nat)
    (fetch : String → Nat → Nat → List Event) :
    Except String (List (String × List Event)) :=
  if parsed.timeConstraints = "weekend" then .error "WEEKEND_MEETING_REQUESTED"
  else
    match getDateRangeFromConstraint parsed.timeConstraints parsed.meetingDuration now with
    | none => .error "WEEKEND_MEETING_REQUESTED"
    | some (startTime, endTime) =>
      .ok (parsed.participants.map (fun p => (p, fetch p startTime endTime)))

/-- Steps 2-4 of `meeting_assistant.your_meeting_assistant` starting
from the parsed request: fetch calendars (or reject), resolve, format;
the `except` clause that string-matches `WEEKEND_MEETING_REQUESTED`
becomes the `Except.error` branch. -/
def processParsedRequest (data : InputData) (parsed : ParsedRequest) (now : Nat)
    (fetch : String → Nat → Nat → List Event) : Response :=
  match getAllParticipantsEvents parsed now fetch with
  | .error e =>
    if strContains e "WEEKEND_MEETING_REQUESTED" then createWeekendRejectionResponse data
    else createErrorResponse data e
  | .ok allEvents =>
    let d := resolveSchedulingConflicts parsed allEvents parsed.meetingDuration now
    formatOutput data (serializeDecision d) allEvents

/-- The tomorrow slot of `_get_tomorrow_time` always lands on a
weekday (Monday-Friday) at 10:00 local, for every clock instant. -/
theorem getTomorrowTime_weekday_ten (now : Nat) :
    weekday (getTomorrowTime now) < 5 ∧ hourOf (getTomorrowTime now) = 10 ∧
      minuteOf (getTomorrowTime now) = 0 := by
  unfold getTomorrowTime atTime dayBase isWeekend weekday dayIndex hourOf minuteOf
  dsimp only
  split_ifs <;> simp_all <;> omega

/-- The tomorrow slot depends only on the calendar date of the clock
instant, not its time of day. -/
theorem getTomorrowTime_day_determined (n1 n2 : Nat) (h : dayIndex n1 = dayIndex n2) :
    getTomorrowTime n1 = getTomorrowTime n2 := by
  unfold getTomorrowTime atTime dayBase isWeekend weekday dayIndex
  unfold dayIndex at h
  dsimp only
  have h1 : (n1 + 1440) / 1440 = (n2 + 1440) / 1440 := by omega
  rw [h1]
  split_ifs <;> omega

/-- Claim C2 (code bug): the spec says the first matching tier in the
check order high, medium, low wins, so a subject containing both a
medium and a low keyword should be classified medium.  The code's
early-exit test `if importance != 'medium': break` cannot distinguish a
medium match from the default, so the scan continues into the low
keyword set and a later low match overrides the medium one: for the
subject `"Team Lunch"`, which contains the medium keyword `team` and
the low keyword `lunch` (and no high keyword), the classifier returns
`low`, not `medium`. -/
theorem classifyImportance_medium_overridden :
    strContains (lowerStr "Team Lunch") "team" = true ∧
    strContains (lowerStr "Team Lunch") "lunch" = true ∧
    strContains (lowerStr "Team Lunch") "client" = false ∧
    classifyImportance "Team Lunch" = "low" := by decide

/-- Counterexample to claim C8 as stated: with the declared input
(`meeting_duration`) fixed at 30, `_find_alternative_time` returns
different results at two different clock instants — the source reads
`datetime.now()`, so the result is not reproducible from declared
inputs alone. -/
theorem findAlternativeTime_clock_dependent :
    findAlternativeTime 30 0 ≠ findAlternativeTime 30 60 := by decide

/-- Claim C8, amended: the time-resolution helpers are deterministic
only once the wall-clock instant read by `datetime.now()` is fixed
along with the declared inputs.  Given the clock instant, the
alternative follow-up time is independent of the declared meeting
duration, and the tomorrow slot depends only on the calendar date of
the instant. -/
theorem timeResolution_determined_by_clock :
    (∀ d1 d2 n : Nat, findAlternativeTime d1 n = findAlternativeTime d2 n) ∧
    (∀ n1 n2 : Nat, dayIndex n1 = dayIndex n2 → getTomorrowTime n1 = getTomorrowTime n2) := by
  refine ⟨fun d1 d2 n => rfl, fun n1 n2 h => getTomorrowTime_day_determined n1 n2 h⟩

/-- Witness for `timeResolution_determined_by_clock` at concrete
inputs. -/
theorem timeResolution_determined_by_clock_witness :
    findAlternativeTime 15 100 = findAlternativeTime 45 100 ∧
      getTomorrowTime 100 = getTomorrowTime 200 :=
  ⟨timeResolution_determined_by_clock.1 15 45 100,
   timeResolution_determined_by_clock.2 100 200 (by decide)⟩

/-- Concrete request envelope used by the C6 counterexample and
witness. -/
def c6Request : InputData :=
  { Request_id := "req-c6", Datetime := "", Location := "", From := "userone.amd@gmail.com",
    Attendees := ["usertwo.amd@gmail.com"], Subject := "Status sync", EmailContent := "" }

/-- Concrete resolution result whose recommended start string is not a
parsable timestamp. -/
def c6Resolution : ResolutionResult :=
  { action := "schedule_all", recommendedTime := "not-a-time",
    participantsToInclude := ["userone.amd@gmail.com"], reason := "", meetingDuration := 30 }

/-- Counterexample to claim C6 as stated: on a decision whose
recommended start does not parse, `format_output` does not propagate an
error — it emits a full response whose `EventEnd` silently echoes the
unparseable start value. -/
theorem formatOutput_echoes_unparseable_start :
    (formatOutput c6Request c6Resolution []).EventEnd = "not-a-time" ∧
    (formatOutput c6Request c6Resolution []).EventStart = "not-a-time" ∧
    parseIsoModel (removeAll "not-a-time" "+05:30") = none := by decide

/-- Claim C6, amended: when the recommended start string fails to
parse, the `except` fallback of `_calculate_end_time` returns the start
string unchanged, so the assembled response carries the unparseable
value as both `EventStart` and `EventEnd` instead of failing closed. -/
theorem formatOutput_fallback_on_unparseable (req : InputData) (rr : ResolutionResult)
    (allEvents : List (String × List Event))
    (h : parseIsoModel (removeAll rr.recommendedTime "+05:30") = none) :
    (formatOutput req rr allEvents).EventStart = rr.recommendedTime ∧
    (formatOutput req rr allEvents).EventEnd = rr.recommendedTime := by
  unfold formatOutput calculateEndTime
  dsimp only
  rw [h]
  exact ⟨rfl, rfl⟩

/-- Witness for `formatOutput_fallback_on_unparseable` at a concrete
unparseable start string. -/
theorem formatOutput_fallback_on_unparseable_witness :
    (formatOutput c6Request
        { action := "schedule_all", recommendedTime := "2026-13-99T99:99", meetingDuration := 60,
          participantsToInclude := [], reason := "" } []).EventEnd = "2026-13-99T99:99" :=
  (formatOutput_fallback_on_unparseable c6Request
    { action := "schedule_all", recommendedTime := "2026-13-99T99:99", meetingDuration := 60,
      participantsToInclude := [], reason := "" } [] (by decide)).2

/-- Closed form of the `_analyze_conflicts` loop: available names are
the keys with empty event lists, busy names the keys with non-empty
lists, and the conflict details cover exactly the busy keys, all in
iteration order. -/
theorem analyzeConflictsAux_eq (l : List (String × List Event)) :
    analyzeConflictsAux l =
      ((l.filter (fun pe => pe.2.isEmpty)).map Prod.fst,
       (l.filter (fun pe => !pe.2.isEmpty)).map Prod.fst,
       (l.filter (fun pe => !pe.2.isEmpty)).map
         (fun pe => (pe.1, analyzeMeetingImportance pe.2))) := by
  induction l with
  | nil => rfl
  | cons pe rest ih =>
    obtain ⟨p, evs⟩ := pe
    simp only [analyzeConflictsAux, ih, List.filter_cons]
    by_cases h : evs.isEmpty <;> simp [h]

/-- With duplicate-free keys, an association list determines the value
of each key uniquely. -/
theorem assoc_value_unique {l : List (String × List Event)}
    (hnd : (l.map Prod.fst).Nodup) {p : String} {e1 e2 : List Event}
    (h1 : (p, e1) ∈ l) (h2 : (p, e2) ∈ l) : e1 = e2 := by
  induction l with
  | nil => cases h1
  | cons q rest ih =>
    simp only [List.map_cons, List.nodup_cons] at hnd
    rcases List.mem_cons.mp h1 with hq1 | h1t
    · rcases List.mem_cons.mp h2 with hq2 | h2t
      · rw [← hq1] at hq2; exact (Prod.mk.injEq _ _ _ _ ▸ hq2).2.symm
      · exact absurd (List.mem_map.mpr ⟨(p, e2), h2t, by rw [← hq1]⟩) hnd.1
    · rcases List.mem_cons.mp h2 with hq2 | h2t
      · exact absurd (List.mem_map.mpr ⟨(p, e1), h1t, by rw [← hq2]⟩) hnd.1
      · exact ih hnd.2 h1t h2t

/-- Membership in the available list of the analysis. -/
theorem mem_availableParticipants {l : List (String × List Event)} {p : String} :
    p ∈ (analyzeConflicts l).availableParticipants ↔ ∃ evs, (p, evs) ∈ l ∧ evs = [] := by
  unfold analyzeConflicts
  rw [analyzeConflictsAux_eq]
  simp only [List.mem_map, List.mem_filter]
  constructor
  · rintro ⟨⟨q, evs⟩, ⟨hm, he⟩, rfl⟩
    exact ⟨evs, hm, List.isEmpty_iff.mp he⟩
  · rintro ⟨evs, hm, rfl⟩
    exact ⟨(p, []), ⟨hm, rfl⟩, rfl⟩

/-- Membership in the busy list of the analysis. -/
theorem mem_busyParticipants {l : List (String × List Event)} {p : String} :
    p ∈ (analyzeConflicts l).busyParticipants ↔ ∃ evs, (p, evs) ∈ l ∧ evs ≠ [] := by
  unfold analyzeConflicts
  rw [analyzeConflictsAux_eq]
  simp only [List.mem_map, List.mem_filter]
  constructor
  · rintro ⟨⟨q, evs⟩, ⟨hm, he⟩, rfl⟩
    refine ⟨evs, hm, ?_⟩
    simpa [List.isEmpty_iff] using he
  · rintro ⟨evs, hm, hne⟩
    exact ⟨(p, evs), ⟨hm, by simpa [List.isEmpty_iff] using hne⟩, rfl⟩

/-- Claim C9: a participant is classified available exactly when their
event list is empty and busy otherwise, and the available and busy
lists are disjoint and together a permutation of the participant keys
(the source builds the mapping with one `dict` key per participant,
hence the duplicate-free hypothesis). -/
theorem analyzeConflicts_partition (l : List (String × List Event))
    (hnd : (l.map Prod.fst).Nodup) (p : String) (evs : List Event) (hmem : (p, evs) ∈ l) :
    (p ∈ (analyzeConflicts l).availableParticipants ↔ evs = []) ∧
    (p ∈ (analyzeConflicts l).busyParticipants ↔ evs ≠ []) ∧
    (analyzeConflicts l).availableParticipants.Disjoint
      (analyzeConflicts l).busyParticipants ∧
    List.Perm
      ((analyzeConflicts l).availableParticipants ++ (analyzeConflicts l).busyParticipants)
      (l.map Prod.fst) := by
  refine ⟨?_, ?_, ?_, ?_⟩
  · rw [mem_availableParticipants]
    constructor
    · rintro ⟨evs2, hm2, rfl⟩
      exact assoc_value_unique hnd hmem hm2
    · rintro rfl; exact ⟨[], hmem, rfl⟩
  · rw [mem_busyParticipants]
    constructor
    · rintro ⟨evs2, hm2, hne⟩
      rw [assoc_value_unique hnd hmem hm2]; exact hne
    · intro hne; exact ⟨evs, hmem, hne⟩
  · intro q hqa hqb
    rw [mem_availableParticipants] at hqa
    rw [mem_busyParticipants] at hqb
    obtain ⟨e1, hm1, rfl⟩ := hqa
    obtain ⟨e2, hm2, hne⟩ := hqb
    exact hne (assoc_value_unique hnd hm2 hm1)
  · unfold analyzeConflicts
    rw [analyzeConflictsAux_eq]
    rw [← List.map_append]
    exact (List.filter_append_perm _ l).map Prod.fst


/-- Witness for `analyzeConflicts_partition`: a two-participant mapping
with one free and one busy participant. -/
theorem analyzeConflicts_partition_witness :
    "free.amd@gmail.com" ∈
      (analyzeConflicts [("free.amd@gmail.com", []),
        ("busy.amd@gmail.com",
          [{ StartTime := "", EndTime := "", NumAttendees := 1, Attendees := [],
             Summary := "Client call" }])]).availableParticipants ∧
    "busy.amd@gmail.com" ∈
      (analyzeConflicts [("free.amd@gmail.com", []),
        ("busy.amd@gmail.com",
          [{ StartTime := "", EndTime := "", NumAttendees := 1, Attendees := [],
             Summary := "Client call" }])]).busyParticipants := by
  constructor
  · exact (analyzeConflicts_partition _ (by decide) "free.amd@gmail.com" []
      (by simp)).1.mpr rfl
  · exact (analyzeConflicts_partition _ (by decide) "busy.amd@gmail.com"
      [{ StartTime := "", EndTime := "", NumAttendees := 1, Attendees := [],
         Summary := "Client call" }] (by simp)).2.1.mpr (by simp)

/-- Claim C5: when every participant is busy (a non-empty mapping in
which every event list is non-empty), the engine decides
`reschedule_tomorrow`, includes all request participants, and the
recommended start falls on a weekday (Monday-Friday) at 10:00 local
time, for every clock instant. -/
theorem allBusy_reschedule_tomorrow (parsed : ParsedRequest)
    (l : List (String × List Event)) (dur now : Nat) (hne : l ≠ [])
    (hb : ∀ pe ∈ l, pe.2 ≠ []) :
    (resolveSchedulingConflicts parsed l dur now).action = "reschedule_tomorrow" ∧
    (resolveSchedulingConflicts parsed l dur now).participantsToInclude =
      parsed.participants ∧
    weekday (resolveSchedulingConflicts parsed l dur now).recommendedTime < 5 ∧
    hourOf (resolveSchedulingConflicts parsed l dur now).recommendedTime = 10 ∧
    minuteOf (resolveSchedulingConflicts parsed l dur now).recommendedTime = 0 := by
  have hf1 : l.filter (fun pe => pe.2.isEmpty) = [] := by
    rw [List.filter_eq_nil]
    intro pe hm
    simpa using hb pe hm
  have hf2 : l.filter (fun pe => !pe.2.isEmpty) = l := by
    rw [List.filter_eq_self]
    intro pe hm
    simpa using hb pe hm
  unfold resolveSchedulingConflicts analyzeConflicts handleAllBusy
  rw [analyzeConflictsAux_eq, hf1, hf2]
  dsimp only
  split_ifs with h1 h2
  · exfalso
    simp only [beq_iff_eq, List.length_eq_zero, List.map_eq_nil] at h1
    exact hne h1
  · exfalso
    simp only [Bool.and_eq_true, decide_eq_true_eq, List.length_map] at h2
    omega
  · exact ⟨rfl, rfl, (getTomorrowTime_weekday_ten now).1,
      (getTomorrowTime_weekday_ten now).2.1, (getTomorrowTime_weekday_ten now).2.2⟩

/-- Witness for `allBusy_reschedule_tomorrow`: two participants, both
with one busy interval. -/
theorem allBusy_reschedule_tomorrow_witness :
    (resolveSchedulingConflicts
        { participants := ["userone.amd@gmail.com", "usertwo.amd@gmail.com"],
          meetingDuration := 30, timeConstraints := "next available time",
          subject := "Project status", startTime := none, From := "userone.amd@gmail.com" }
        [("userone.amd@gmail.com",
          [{ StartTime := "", EndTime := "", NumAttendees := 1, Attendees := [],
             Summary := "Client call" }]),
         ("usertwo.amd@gmail.com",
          [{ StartTime := "", EndTime := "", NumAttendees := 1, Attendees := [],
             Summary := "Team meet" }])] 30 0).action = "reschedule_tomorrow" :=
  (allBusy_reschedule_tomorrow _ _ 30 0 (by decide) (by decide)).1

/-- An analysis that reports everyone free cannot also report some
busy. -/
theorem allFree_not_someBusy (l : List (String × List Event))
    (h : (analyzeConflicts l).allFree = true) : (analyzeConflicts l).someBusy = false := by
  unfold analyzeConflicts at h ⊢
  rw [analyzeConflictsAux_eq] at h ⊢
  dsimp only at h ⊢
  simp only [beq_iff_eq] at h
  simp [h]

/-- Claim C1, amended: the engine returns `schedule_all_with_reschedule`
exactly when at least one but not all participants are busy, the
subject contains no requires-everyone keyword, and the first busy
participant (in participant order) has a conflicting interval of tier
low; in that case the included participants are all request
participants and the reschedule target is that first busy participant. -/
theorem scheduleAllWithReschedule_iff (parsed : ParsedRequest)
    (l : List (String × List Event)) (dur now : Nat) :
    ((resolveSchedulingConflicts parsed l dur now).action = "schedule_all_with_reschedule" ↔
      ((analyzeConflicts l).someBusy = true ∧ requiresAllKeyword parsed.subject = false ∧
        firstBusyHasLowConflict (analyzeConflicts l) = true)) ∧
    ((resolveSchedulingConflicts parsed l dur now).action = "schedule_all_with_reschedule" →
      (resolveSchedulingConflicts parsed l dur now).participantsToInclude =
        parsed.participants ∧
      (resolveSchedulingConflicts parsed l dur now).rescheduleNeeded =
        some ((analyzeConflicts l).busyParticipants.headD "")) := by
  unfold resolveSchedulingConflicts handlePartialConflicts scheduleAllParticipants
    handleAllBusy rescheduleForAll scheduleWithReschedule schedulePartialMeeting
  dsimp only
  split_ifs with h1 h2 h3 h4 h5
  · refine ⟨⟨fun hc => by simp at hc, ?_⟩, fun hc => by simp at hc⟩
    rintro ⟨hs, -, -⟩
    rw [allFree_not_someBusy l h1] at hs
    cases hs
  · refine ⟨⟨fun hc => by simp at hc, ?_⟩, fun hc => by simp at hc⟩
    rintro ⟨-, hr, -⟩
    rw [h3] at hr
    cases hr
  · exact ⟨⟨fun _ => ⟨h2, by simpa using h3, h4⟩, fun _ => rfl⟩, fun _ => ⟨rfl, rfl⟩⟩
  · refine ⟨⟨fun hc => by simp at hc, ?_⟩, fun hc => by simp at hc⟩
    rintro ⟨-, -, hl⟩
    simp only [Bool.not_eq_true] at h4
    rw [h4] at hl
    cases hl
  · refine ⟨⟨fun hc => by simp at hc, ?_⟩, fun hc => by simp at hc⟩
    rintro ⟨-, -, hl⟩
    simp only [Bool.not_eq_true] at h4
    rw [h4] at hl
    cases hl
  · refine ⟨⟨fun hc => by simp at hc, ?_⟩, fun hc => by simp at hc⟩
    rintro ⟨hs, -, -⟩
    exact (h2 hs).elim

/-- Participant calendars with two busy participants out of three; the
first busy participant has a low-importance conflict. -/
def c1Events : List (String × List Event) :=
  [("userone.amd@gmail.com", []),
   ("usertwo.amd@gmail.com",
    [{ StartTime := "", EndTime := "", NumAttendees := 1, Attendees := [],
       Summary := "Coffee break" }]),
   ("userthree.amd@gmail.com",
    [{ StartTime := "", EndTime := "", NumAttendees := 1, Attendees := [],
       Summary := "Client call" }])]

/-- Request used with `c1Events`: subject with no requires-everyone
keyword. -/
def c1Parsed : ParsedRequest :=
  { participants := ["userone.amd@gmail.com", "usertwo.amd@gmail.com",
      "userthree.amd@gmail.com"],
    meetingDuration := 30, timeConstraints := "thursday", subject := "Project sync",
    startTime := none, From := "userone.amd@gmail.com" }

/-- Counterexample to claim C1 as stated: the engine also returns
`schedule_all_with_reschedule` when two of three participants are busy
(the claim requires exactly one busy participant), as long as the
first busy participant has a low-importance conflict. -/
theorem scheduleAllWithReschedule_two_busy :
    (resolveSchedulingConflicts c1Parsed c1Events 30 0).action =
      "schedule_all_with_reschedule" ∧
    (analyzeConflicts c1Events).busyParticipants =
      ["usertwo.amd@gmail.com", "userthree.amd@gmail.com"] := by
  constructor
  · rfl
  · rfl

/-- Witness for `scheduleAllWithReschedule_iff` at the concrete input
`c1Parsed`/`c1Events`. -/
theorem scheduleAllWithReschedule_iff_witness :
    (resolveSchedulingConflicts c1Parsed c1Events 30 5).rescheduleNeeded =
      some "usertwo.amd@gmail.com" := by
  have h := scheduleAllWithReschedule_iff c1Parsed c1Events 30 5
  have ha := h.1.mpr ⟨by decide, by decide, by decide⟩
  have hr := (h.2 ha).2
  rw [hr]
  rfl

/-- A constraint text containing `saturday` or `sunday` (lowercased)
trips `check_weekend_constraint`. -/
theorem checkWeekendConstraint_of_mention (tc : String)
    (h : strContains (lowerStr tc) "saturday" = true ∨
      strContains (lowerStr tc) "sunday" = true) :
    checkWeekendConstraint tc = true := by
  unfold checkWeekendConstraint
  rcases h with h | h <;> simp [h]

/-- For a weekend constraint the calendar stage raises before any
fetch: the result is the weekend error for every fetch function. -/
theorem getAllParticipantsEvents_weekend (parsed : ParsedRequest) (now : Nat)
    (fetch : String → Nat → Nat → List Event)
    (h : parsed.timeConstraints = "weekend" ∨
      strContains (lowerStr parsed.timeConstraints) "saturday" = true ∨
      strContains (lowerStr parsed.timeConstraints) "sunday" = true) :
    getAllParticipantsEvents parsed now fetch = .error "WEEKEND_MEETING_REQUESTED" := by
  unfold getAllParticipantsEvents
  by_cases htc : parsed.timeConstraints = "weekend"
  · rw [if_pos htc]
  · rw [if_neg htc]
    have hw : checkWeekendConstraint parsed.timeConstraints = true := by
      rcases h with h | h
      · exact absurd h htc
      · exact checkWeekendConstraint_of_mention _ h
    unfold getDateRangeFromConstraint
    dsimp only
    rw [if_pos hw]

/-- Claim C4: for every request whose parsed time constraint is
`weekend`, or whose constraint text mentions Saturday or Sunday, the
engine rejects before and independently of any calendar data (the same
rejection results for every fetch function), and the rejection response
carries the original envelope with empty `EventStart`, `EventEnd` and
`Duration_mins` and a `MetaData` of status `rejected` with a reason and
a message. -/
theorem weekendRequest_rejected (data : InputData) (parsed : ParsedRequest) (now : Nat)
    (fetch fetch2 : String → Nat → Nat → List Event)
    (h : parsed.timeConstraints = "weekend" ∨
      strContains (lowerStr parsed.timeConstraints) "saturday" = true ∨
      strContains (lowerStr parsed.timeConstraints) "sunday" = true) :
    processParsedRequest data parsed now fetch = createWeekendRejectionResponse data ∧
    processParsedRequest data parsed now fetch = processParsedRequest data parsed now fetch2 ∧
    (createWeekendRejectionResponse data).EventStart = "" ∧
    (createWeekendRejectionResponse data).EventEnd = "" ∧
    (createWeekendRejectionResponse data).Duration_mins = "" ∧
    (createWeekendRejectionResponse data).MetaData =
      .rejected "rejected" "Its weekends no meetings are possible"
        "Weekend meetings are not allowed. Please schedule during business days (Monday-Friday)." ∧
    (createWeekendRejectionResponse data).Request_id = data.Request_id ∧
    (createWeekendRejectionResponse data).From = data.From ∧
    (createWeekendRejectionResponse data).Attendees = .raw data.Attendees ∧
    (createWeekendRejectionResponse data).Subject = data.Subject ∧
    (createWeekendRejectionResponse data).EmailContent = data.EmailContent := by
  have h1 : processParsedRequest data parsed now fetch = createWeekendRejectionResponse data := by
    unfold processParsedRequest
    rw [getAllParticipantsEvents_weekend parsed now fetch h]
    rfl
  have h2 : processParsedRequest data parsed now fetch2 = createWeekendRejectionResponse data := by
    unfold processParsedRequest
    rw [getAllParticipantsEvents_weekend parsed now fetch2 h]
    rfl
  exact ⟨h1, h1.trans h2.symm, rfl, rfl, rfl, rfl, rfl, rfl, rfl, rfl, rfl⟩

/-- Witness for `weekendRequest_rejected`: a concrete Saturday request
is rejected identically under two different calendar fetch results. -/
theorem weekendRequest_rejected_witness :
    processParsedRequest
        { Request_id := "req-w", Datetime := "", Location := "", From := "userone.amd@gmail.com",
          Attendees := ["usertwo.amd@gmail.com"], Subject := "Family time",
          EmailContent := "Meet on Saturday" }
        { participants := ["userone.amd@gmail.com", "usertwo.amd@gmail.com"],
          meetingDuration := 30, timeConstraints := "weekend", subject := "Family time",
          startTime := none, From := "userone.amd@gmail.com" } 0 (fun _ _ _ => []) =
      createWeekendRejectionResponse
        { Request_id := "req-w", Datetime := "", Location := "", From := "userone.amd@gmail.com",
          Attendees := ["usertwo.amd@gmail.com"], Subject := "Family time",
          EmailContent := "Meet on Saturday" } :=
  (weekendRequest_rejected _ _ 0 (fun _ _ _ => [])
    (fun _ _ _ =>
      [{ StartTime := "", EndTime := "", NumAttendees := 1, Attendees := [],
         Summary := "x" }])
    (Or.inl rfl)).1

/-- Claim C10: in the `schedule_organizer_first` branch the included
list is the organizer (the request From address) prepended to the
available participants, so an organizer who is also available appears
twice, the list is not duplicate-free, and the meeting event the
formatter attaches counts attendees with `len(included_participants)`,
which counts the duplicate. -/
theorem organizerFirst_duplicate_organizer (parsed : ParsedRequest)
    (avail busy : List String) (dur now : Nat)
    (h : ¬(strContains (lowerStr parsed.subject) "feedback" = true ∧ 1 ≤ avail.length)) :
    (schedulePartialMeeting parsed avail busy dur now).action = "schedule_organizer_first" ∧
    (schedulePartialMeeting parsed avail busy dur now).participantsToInclude =
      parsed.From :: avail ∧
    (parsed.From ∈ avail →
      ¬(schedulePartialMeeting parsed avail busy dur now).participantsToInclude.Nodup ∧
      (schedulePartialMeeting parsed avail busy dur now).participantsToInclude.dedup.length <
        (schedulePartialMeeting parsed avail busy dur now).participantsToInclude.length) ∧
    (∀ (req : InputData) (evsMap : List (String × List Event)) (ms me subj : String),
      ∀ entry ∈ buildAttendeesEvents (parsed.From :: avail) evsMap ms me subj req,
        entry.email ∈ parsed.From :: avail →
          ({ StartTime := ms, EndTime := me, NumAttendees := (parsed.From :: avail).length,
             Attendees := parsed.From :: avail, Summary := subj } : Event) ∈ entry.events) := by
  have hcond : (strContains (lowerStr parsed.subject) "feedback" &&
      decide (1 ≤ avail.length)) = false := by
    cases hf : strContains (lowerStr parsed.subject) "feedback"
    · simp
    · simp only [hf, true_and] at h
      simp [h]
  unfold schedulePartialMeeting
  dsimp only
  split_ifs with hif
  · rw [hcond] at hif
    cases hif
  · refine ⟨rfl, rfl, ?_, ?_⟩
    · intro hm
      constructor
      · rw [List.nodup_cons]
        rintro ⟨hn, -⟩
        exact hn hm
      · rw [List.dedup_cons_of_mem hm]
        have hs : avail.dedup.length ≤ avail.length := (List.dedup_sublist avail).length_le
        simp only [List.length_cons]
        omega
    · intro req evsMap ms me subj entry hentry hmem
      unfold buildAttendeesEvents at hentry
      obtain ⟨p, hp, rfl⟩ := List.mem_map.mp hentry
      dsimp only at hmem ⊢
      have hc : (parsed.From :: avail).contains p = true := by
        simpa using hmem
      rw [hc]
      simp only [if_true]
      rw [List.mem_insertionSort]
      exact List.mem_append_right _ (List.mem_singleton_self _)

/-- Witness for `organizerFirst_duplicate_organizer`: the organizer is
also among the available participants, so the included list holds them
twice. -/
theorem organizerFirst_duplicate_organizer_witness :
    (schedulePartialMeeting
        { participants := ["userone.amd@gmail.com", "usertwo.amd@gmail.com"],
          meetingDuration := 30, timeConstraints := "monday", subject := "Status sync",
          startTime := none, From := "userone.amd@gmail.com" }
        ["userone.amd@gmail.com"] ["usertwo.amd@gmail.com"] 30 0).participantsToInclude =
      ["userone.amd@gmail.com", "userone.amd@gmail.com"] ∧
    ¬(schedulePartialMeeting
        { participants := ["userone.amd@gmail.com", "usertwo.amd@gmail.com"],
          meetingDuration := 30, timeConstraints := "monday", subject := "Status sync",
          startTime := none, From := "userone.amd@gmail.com" }
        ["userone.amd@gmail.com"] ["usertwo.amd@gmail.com"] 30 0).participantsToInclude.Nodup := by
  have h := organizerFirst_duplicate_organizer
    { participants := ["userone.amd@gmail.com", "usertwo.amd@gmail.com"],
      meetingDuration := 30, timeConstraints := "monday", subject := "Status sync",
      startTime := none, From := "userone.amd@gmail.com" }
    ["userone.amd@gmail.com"] ["usertwo.amd@gmail.com"] 30 0 (by decide)
  exact ⟨h.2.1, (h.2.2.1 (by decide)).1⟩

/-- Half-open non-overlap of two busy intervals. -/
def intervalsDisjoint (a b : CalInterval) : Prop :=
  ¬(a.startTime < b.endTime ∧ b.startTime < a.endTime)

instance : DecidableRel intervalsDisjoint := fun a b => by
  unfold intervalsDisjoint; infer_instance

/-- Half-open overlap of a returned slot with a busy interval. -/
def slotOverlaps (s : Slot) (e : CalInterval) : Prop :=
  s.start < e.endTime ∧ e.startTime < s.stop

instance (s : Slot) (e : CalInterval) : Decidable (slotOverlaps s e) := by
  unfold slotOverlaps; infer_instance

/-- Chronological chaining of adjacent intervals: the earlier one ends
before the later one starts. -/
def endLe (a b : CalInterval) : Prop := a.endTime ≤ b.startTime

/-- In a chained list of non-empty intervals, every interval after the
head starts no earlier than the head ends. -/
theorem chainHead_le_start (a : CalInterval) (rest : List CalInterval)
    (hch : List.Chain' endLe (a :: rest))
    (hwf : ∀ e ∈ rest, e.startTime < e.endTime) :
    ∀ x ∈ rest, a.endTime ≤ x.startTime := by
  induction rest generalizing a with
  | nil => intro x hx; cases hx
  | cons b rest2 ih =>
    intro x hx
    have hab : a.endTime ≤ b.startTime := (List.chain'_cons.mp hch).1
    rcases List.mem_cons.mp hx with rfl | hx2
    · exact hab
    · have hb := ih b (List.chain'_cons.mp hch).2
        (fun e he => hwf e (List.mem_cons_of_mem _ he)) x hx2
      have hbwf := hwf b (List.mem_cons_self _ _)
      unfold endLe at *
      omega

/-- In a chained list of non-empty intervals, every interval ends no
later than the last one. -/
theorem chain_end_le_last (l : List CalInterval) (hch : List.Chain' endLe l)
    (hwf : ∀ e ∈ l, e.startTime < e.endTime) (lst : CalInterval)
    (hlast : l.getLast? = some lst) : ∀ x ∈ l, x.endTime ≤ lst.endTime := by
  induction l with
  | nil => cases hlast
  | cons a rest ih =>
    intro x hx
    cases rest with
    | nil =>
      rcases List.mem_cons.mp hx with rfl | hx2
      · simp only [List.getLast?_singleton, Option.some.injEq] at hlast
        rw [hlast]
      · cases hx2
    | cons b rest2 =>
      rw [List.getLast?_cons_cons] at hlast
      have hib := ih (List.chain'_cons.mp hch).2
        (fun e he => hwf e (List.mem_cons_of_mem _ he)) hlast
      rcases List.mem_cons.mp hx with rfl | hx2
      · have hab : x.endTime ≤ b.startTime := (List.chain'_cons.mp hch).1
        have hbwf := hwf b (List.mem_cons_of_mem _ (List.mem_cons_self _ _))
        have hb := hib b (List.mem_cons_self _ _)
        omega
      · exact hib x hx2

/-- Every slot produced by the between-events pass of
`find_free_slots` on a chained list of non-empty intervals has the
requested length, and every interval of the list either ends at or
before the slot starts or starts at or after the slot ends. -/
theorem betweenSlots_spec (d : Nat) (l : List CalInterval)
    (hch : List.Chain' endLe l) (hwf : ∀ e ∈ l, e.startTime < e.endTime) :
    ∀ s ∈ betweenSlots d l,
      s.stop = s.start + d ∧ (∃ e0 ∈ l, s.start = e0.endTime) ∧
      ∀ e ∈ l, e.endTime ≤ s.start ∨ s.start + d ≤ e.startTime := by
  induction l with
  | nil => intro s hs; cases hs
  | cons a rest ih =>
    intro s hs
    cases rest with
    | nil => cases hs
    | cons b rest2 =>
      have hchtail : List.Chain' endLe (b :: rest2) := (List.chain'_cons.mp hch).2
      have hab : a.endTime ≤ b.startTime := (List.chain'_cons.mp hch).1
      have hwftail : ∀ e ∈ b :: rest2, e.startTime < e.endTime :=
        fun e he => hwf e (List.mem_cons_of_mem _ he)
      rcases List.mem_append.mp hs with hsl | hsr
      · by_cases hcond : (d : Int) ≤ (b.startTime : Int) - (a.endTime : Int)
        · rw [if_pos hcond] at hsl
          have hnat : a.endTime + d ≤ b.startTime := by omega
          rcases List.mem_singleton.mp hsl with rfl
          refine ⟨rfl, ⟨a, List.mem_cons_self _ _, rfl⟩, ?_⟩
          intro e he
          rcases List.mem_cons.mp he with rfl | he2
          · exact Or.inl (le_refl _)
          · rcases List.mem_cons.mp he2 with rfl | he3
            · exact Or.inr hnat
            · have hbe : b.endTime ≤ e.startTime :=
                chainHead_le_start b rest2 hchtail
                  (fun x hx => hwf x (List.mem_cons_of_mem _ (List.mem_cons_of_mem _ hx))) e he3
              have hbwf := hwf b (List.mem_cons_of_mem _ (List.mem_cons_self _ _))
              exact Or.inr (show a.endTime + d ≤ e.startTime by omega)
        · rw [if_neg hcond] at hsl
          cases hsl
      · obtain ⟨hstop, ⟨e0, he0, he0eq⟩, hall⟩ := ih hchtail hwftail s hsr
        refine ⟨hstop, ⟨e0, List.mem_cons_of_mem _ he0, he0eq⟩, ?_⟩
        intro e he
        rcases List.mem_cons.mp he with rfl | he2
        · left
          have hbwf := hwf b (List.mem_cons_of_mem _ (List.mem_cons_self _ _))
          rcases List.mem_cons.mp he0 with rfl | he03
          · omega
          · have hbe : b.endTime ≤ e0.startTime :=
              chainHead_le_start b rest2 hchtail
                (fun x hx => hwf x (List.mem_cons_of_mem _ (List.mem_cons_of_mem _ hx))) e0 he03
            have he0wf := hwf e0 (List.mem_cons_of_mem _ (List.mem_cons_of_mem _ he03))
            omega
        · exact hall e he2

/-- Claim C3, amended: when the input busy intervals are non-empty
(`start < end`) and pairwise non-overlapping, no slot returned by
`find_free_slots` overlaps the half-open range of any input interval,
for every positive duration. -/
theorem findFreeSlots_no_overlap (evs : List CalInterval) (d dayStart : Nat) (hd : 0 < d)
    (hwf : ∀ e ∈ evs, e.startTime < e.endTime)
    (hdisj : List.Pairwise intervalsDisjoint evs) :
    ∀ s ∈ findFreeSlots evs d dayStart, ∀ e ∈ evs, ¬ slotOverlaps s e := by
  intro s hs e he
  unfold findFreeSlots at hs
  dsimp only at hs
  set L := List.insertionSort startLE evs with hL
  have hperm : List.Perm L evs := List.perm_insertionSort _ _
  have hwfL : ∀ x ∈ L, x.startTime < x.endTime := fun x hx => hwf x (hperm.mem_iff.mp hx)
  have hdisjL : List.Pairwise intervalsDisjoint L :=
    (hperm.pairwise_iff (fun hxy hc => hxy ⟨hc.2, hc.1⟩)).mpr hdisj
  have hsorted : List.Pairwise startLE L := List.sorted_insertionSort _ _
  have hchain : List.Chain' endLe L := by
    refine List.Pairwise.chain' ?_
    refine (hsorted.and hdisjL).imp_of_mem ?_
    intro a b2 ha hb hab
    have hbwf := hwfL b2 hb
    unfold startLE intervalsDisjoint at hab
    unfold endLe
    by_contra hcon
    push_neg at hcon
    exact hab.2 ⟨by omega, by omega⟩
  have heL : e ∈ L := hperm.mem_iff.mpr he
  rcases List.mem_append.mp hs with hs1 | hs2
  · rcases List.mem_append.mp hs1 with hlead | hbet
    · cases hL2 : L with
      | nil =>
        rw [hL2] at heL
        cases heL
      | cons e0 rest =>
        rw [hL2] at hlead heL hchain
        unfold leadSlots at hlead
        dsimp only at hlead
        by_cases hcond : dayStart + 9 * 60 + d < e0.startTime
        · rw [if_pos hcond] at hlead
          rcases List.mem_singleton.mp hlead with rfl
          have hge : e0.startTime ≤ e.startTime := by
            rcases List.mem_cons.mp heL with rfl | he2
            · exact le_refl _
            · have hcs := chainHead_le_start e0 rest hchain
                (fun x hx => hwfL x (hL2 ▸ List.mem_cons_of_mem _ hx)) e he2
              have he0wf := hwfL e0 (hL2 ▸ List.mem_cons_self _ _)
              omega
          intro hov
          unfold slotOverlaps at hov
          dsimp only at hov
          omega
        · rw [if_neg hcond] at hlead
          cases hlead
    · obtain ⟨hstop, -, hall⟩ := betweenSlots_spec d L hchain hwfL s hbet
      intro hov
      unfold slotOverlaps at hov
      rcases hall e heL with h1 | h1 <;> omega
  · unfold afterSlots at hs2
    cases hL3 : L.getLast? with
    | none =>
      rw [hL3] at hs2
      cases hs2
    | some lst =>
      rw [hL3] at hs2
      dsimp only at hs2
      by_cases hcond : lst.endTime + d ≤ dayStart + 18 * 60
      · rw [if_pos hcond] at hs2
        rcases List.mem_singleton.mp hs2 with rfl
        have hle := chain_end_le_last L hchain hwfL lst hL3 e heL
        intro hov
        unfold slotOverlaps at hov
        dsimp only at hov
        omega
      · rw [if_neg hcond] at hs2
        cases hs2

/-- Counterexample to claim C3 as stated: with overlapping input
intervals, the between-events pass emits a slot inside an earlier,
longer interval — here the slot 10:30-11:00 lies inside the interval
09:00-15:00. -/
theorem findFreeSlots_overlap_counterexample :
    findFreeSlots [⟨540, 900⟩, ⟨600, 630⟩, ⟨780, 840⟩] 30 0 =
      [{ start := 630, stop := 660 }, { start := 840, stop := 870 }] ∧
    ({ start := 630, stop := 660 } : Slot) ∈ findFreeSlots [⟨540, 900⟩, ⟨600, 630⟩, ⟨780, 840⟩] 30 0 ∧
    slotOverlaps { start := 630, stop := 660 } ⟨540, 900⟩ ∧
    (0 : Nat) < 30 := by
  refine ⟨by decide, by decide, ?_, by decide⟩
  unfold slotOverlaps
  decide

/-- Witness for `findFreeSlots_no_overlap`: two chronological
non-overlapping intervals; the mid-gap slot does not overlap either. -/
theorem findFreeSlots_no_overlap_witness :
    ¬ slotOverlaps { start := 630, stop := 660 } ⟨600, 630⟩ :=
  findFreeSlots_no_overlap [⟨600, 630⟩, ⟨700, 720⟩] 30 0 (by decide)
    (by decide) (by decide) { start := 630, stop := 660 } (by decide) ⟨600, 630⟩ (by decide)

/-- Claim C7, amended: the leading slot is emitted iff every input
interval starts strictly later than business-start + duration (in
particular always when the list is empty, regardless of duration); on
an empty interval list with duration 30 the finder returns exactly the
slot 09:00-09:30 of the day. -/
theorem leadSlot_iff (evs : List CalInterval) (d dayStart : Nat) :
    (leadSlots (List.insertionSort startLE evs) d (dayStart + 9 * 60) ≠ [] ↔
      ∀ e ∈ evs, dayStart + 9 * 60 + d < e.startTime) ∧
    findFreeSlots [] 30 dayStart =
      [{ start := dayStart + 9 * 60, stop := dayStart + 9 * 60 + 30 }] := by
  constructor
  · cases hL : List.insertionSort startLE evs with
    | nil =>
      have hevs : evs = [] := by
        have hp := List.perm_insertionSort startLE evs
        rw [hL] at hp
        exact hp.symm.eq_nil
      subst hevs
      simp [leadSlots]
    | cons e0 rest =>
      have hperm : List.Perm (e0 :: rest) evs := hL ▸ List.perm_insertionSort startLE evs
      have hsorted : List.Pairwise startLE (e0 :: rest) :=
        hL ▸ List.sorted_insertionSort startLE evs
      unfold leadSlots
      dsimp only
      by_cases hcond : dayStart + 9 * 60 + d < e0.startTime
      · rw [if_pos hcond]
        refine ⟨fun _ e he => ?_, fun _ => by simp⟩
        have heL : e ∈ e0 :: rest := hperm.mem_iff.mpr he
        rcases List.mem_cons.mp heL with rfl | h2
        · exact hcond
        · have hle := (List.pairwise_cons.mp hsorted).1 e h2
          unfold startLE at hle
          omega
      · rw [if_neg hcond]
        constructor
        · intro hfalse
          exact absurd rfl hfalse
        · intro hall
          have he0 : e0 ∈ evs := hperm.mem_iff.mp (List.mem_cons_self _ _)
          exact absurd (hall e0 he0) hcond
  · rfl

/-- Counterexample to claim C7 as stated: a single interval starting
exactly at business-start + duration leaves a window of exactly the
duration (so the claim requires the leading slot), but the finder
emits only the after-event slot — the code tests with strict
inequality. -/
theorem leadSlot_boundary_counterexample :
    findFreeSlots [⟨570, 600⟩] 30 0 = [{ start := 600, stop := 630 }] ∧
    0 + 9 * 60 + 30 ≤ 570 := by decide

/-- Witness for `leadSlot_iff`: one interval strictly after the
leading window, so the leading slot is emitted. -/
theorem leadSlot_iff_witness :
    leadSlots (List.insertionSort startLE [⟨600, 630⟩]) 30 (0 + 9 * 60) ≠ [] :=
  (leadSlot_iff [⟨600, 630⟩] 30 0).1.mpr (by decide)
